import Mathlib

/-!
# Verification of the prompt_tools controller (src/core/controller.py)

This file shallowly embeds the `Controller` class of `src/core/controller.py`
together with the state owned by its three collaborating managers
(`PresetsManager`, `PromptsManager`, `GroupsManager`).  The manager classes are
imported by the controller but their source is not part of the repository
snapshot, so their operations are modelled from the specification (each such
definition carries a doc comment starting with `Modelled from the spec:`).
The controller methods themselves are translated directly from the Python
source.

Python exceptions are modelled with `Except String`; every public controller
operation has type `... → Except String (result × ControllerState)` where an
`Except.error` value corresponds to an exception escaping the method.  A
`try/except` block in the source is translated by matching on the body and
returning the fallback tuple (wrapped in `Except.ok`) on `Except.error`.

Note: in the source, line 785 (`def process_llm_request`) is indented with
three spaces instead of four; it is modelled as the `Controller` method it is
plainly meant to be.
-/

/-- Origin of a prompt record (`extracted` vs user-created). -/
inductive Origin where
  | extracted
  | userCreated
deriving DecidableEq, Repr, Inhabited

/-- A prompt record.  In the Python source prompts are dictionaries with
`name` and `content` keys (and an origin marker); identity is structural. -/
structure Prompt where
  name : String
  content : String
  origin : Origin
deriving DecidableEq, Repr, Inhabited

/-- A preset record: its ordered prompt list and its prefix text.
(The source field is called `prefix`; that is a Lean keyword, so the
field is named `pfx` here.) -/
structure PresetRec where
  prompts : List Prompt
  pfx : String
deriving DecidableEq, Repr, Inhabited

/-- The combined state of the controller and its three managers:
`current_preset_name` (Controller), `presets` (PresetsManager),
`active_prompts` (PromptsManager), `prompt_groups` (GroupsManager, groups of
the currently loaded preset), `saved_groups` (the per-preset group files) and
`saved_activation` (the per-preset persisted activation markers). -/
structure ControllerState where
  current_preset_name : String
  presets : List (String × PresetRec)
  active_prompts : List Prompt
  prompt_groups : List (String × List Nat)
  saved_groups : List (String × List (String × List Nat))
  saved_activation : List (String × List Prompt)
deriving DecidableEq, Repr, Inhabited

/-- Replace (or append) the binding of key `k` in an association list. -/
def updateAssoc {β : Type} (l : List (String × β)) (k : String) (v : β) :
    List (String × β) :=
  match l with
  | [] => [(k, v)]
  | (k0, v0) :: rest =>
    if k0 = k then (k, v) :: rest else (k0, v0) :: updateAssoc rest k v

/-- Python's `"sep".join(parts)`. -/
def joinSep (sep : String) : List String → String
  | [] => ""
  | [a] => a
  | a :: rest => a ++ sep ++ joinSep sep rest

/-- Modelled from the spec: `PresetsManager.get_preset_list` (source file
`presets.py` is not in the snapshot) returns the ordered preset names. -/
def psm_get_preset_list (st : ControllerState) : List String :=
  st.presets.map (fun pr => pr.1)

/-- Modelled from the spec: `PresetsManager.get_prompts` returns the ordered
prompt list of the named preset, empty if the preset is unknown. -/
def psm_get_prompts (st : ControllerState) (name : String) : List Prompt :=
  match st.presets.lookup name with
  | some r => r.prompts
  | none => []

/-- Modelled from the spec: `PresetsManager.get_prefix` (renamed, `prefix` is
a Lean keyword) returns the preset's prefix text, empty if unknown. -/
def psm_get_prefix_text (st : ControllerState) (name : String) : String :=
  match st.presets.lookup name with
  | some r => r.pfx
  | none => ""

/-- Modelled from the spec: `PresetsManager.create_preset` fails if the name
already exists; otherwise it adds an empty preset. -/
def psm_create_preset (st : ControllerState) (name : String) :
    Option ControllerState :=
  if (st.presets.lookup name).isSome then none
  else some { st with presets := st.presets ++ [(name, ⟨[], ""⟩)] }

/-- Modelled from the spec (§4.2): `PromptsManager.activate_prompts`
(`activate(all_prompts, indices)`, source file `prompts.py` is not in the
snapshot): for each index, in input order, append the indexed prompt to the
active list unless an equal prompt is already present; return the new active
list together with the subsequence actually appended.  Indexing an
out-of-range position raises (`IndexError`), modelled as `Except.error`. -/
def pm_activate_prompts (all : List Prompt) (idxs : List Nat)
    (active : List Prompt) : Except String (List Prompt × List Prompt) :=
  match idxs with
  | [] => Except.ok (active, [])
  | i :: rest =>
    if h : i < all.length then
      let p := all[i]
      if p ∈ active then
        pm_activate_prompts all rest active
      else
        match pm_activate_prompts all rest (active ++ [p]) with
        | Except.ok (fin, newly) => Except.ok (fin, p :: newly)
        | Except.error e => Except.error e
    else
      Except.error "IndexError"

/-- Modelled from the spec (§4.2): `PromptsManager.deactivate_prompt` removes
and returns the entry at the given position of the active list, `none` (and
no change) if the position is out of range. -/
def pm_deactivate_prompt (active : List Prompt) (idx : Nat) :
    Option Prompt × List Prompt :=
  if h : idx < active.length then
    (some active[idx], active.eraseIdx idx)
  else
    (none, active)

/-- Modelled from the spec (§4.2): `PromptsManager.deactivate_prompts_by_reference`
removes, for each target prompt in order, the first active entry equal to it
(value equality); returns the removed entries and the new active list. -/
def pm_deactivate_prompts_by_reference (active : List Prompt)
    (targets : List Prompt) : List Prompt × List Prompt :=
  match targets with
  | [] => ([], active)
  | t :: rest =>
    if t ∈ active then
      let res := pm_deactivate_prompts_by_reference (active.erase t) rest
      (t :: res.1, res.2)
    else
      pm_deactivate_prompts_by_reference active rest

/-- Modelled from the spec (§4.2): `PromptsManager.save_activation_state`
snapshots the current active list as the persisted markers of the current
preset. -/
def pm_save_activation_state (st : ControllerState) : ControllerState :=
  { st with saved_activation :=
      updateAssoc st.saved_activation st.current_preset_name st.active_prompts }

/-- Modelled from the spec (§4.2): `PromptsManager.load_activation_state`
restores the active list by re-matching the persisted markers of the named
preset against the current prompt list by value; unmatched markers are
dropped silently. -/
def pm_load_activation_state (st : ControllerState) (name : String)
    (all : List Prompt) : List Prompt :=
  ((st.saved_activation.lookup name).getD []).filter (fun p => all.contains p)

/-- Modelled from the spec (§4.3): `GroupsManager.get_prompt_group` returns
the stored index list of the named group, `none` if the group does not
exist (distinct from an existing empty group). -/
def gm_get_prompt_group (st : ControllerState) (name : String) :
    Option (List Nat) :=
  st.prompt_groups.lookup name

/-- Modelled from the spec (§4.3): `GroupsManager.get_all_groups`. -/
def gm_get_all_groups (st : ControllerState) : List (String × List Nat) :=
  st.prompt_groups

/-- Modelled from the spec (§4.3): `GroupsManager.load_prompt_groups` loads
the named preset's persisted group definitions. -/
def gm_load_prompt_groups (st : ControllerState) (name : String) :
    List (String × List Nat) :=
  (st.saved_groups.lookup name).getD []

/-- Deduplicate, preserving first occurrences (`seen` accumulates the
already-kept values). -/
def dedupFirstAux (seen : List Nat) : List Nat → List Nat
  | [] => []
  | x :: rest =>
    if x ∈ seen then dedupFirstAux seen rest
    else x :: dedupFirstAux (x :: seen) rest

/-- Modelled from the spec (§4.3): `GroupsManager.create_prompt_group` fails
if the name exists or any index is out of range; deduplicates indices
preserving first-occurrence order; persists the group file. -/
def gm_create_prompt_group (st : ControllerState) (name : String)
    (indices : List Int) (all : List Prompt) : Option ControllerState :=
  if (st.prompt_groups.lookup name).isSome then none
  else if indices.any (fun i => decide (¬ (0 ≤ i ∧ i < (all.length : Int)))) then none
  else
    let groups := updateAssoc st.prompt_groups name
      (dedupFirstAux [] (indices.map Int.toNat))
    some { st with prompt_groups := groups,
                   saved_groups :=
                     updateAssoc st.saved_groups st.current_preset_name groups }

/-- Modelled from the spec (§4.3): `GroupsManager.update_prompt_group` fails
if any index is out of range; otherwise replaces the stored indices and
persists. -/
def gm_update_prompt_group (st : ControllerState) (name : String)
    (indices : List Int) (all : List Prompt) : Option ControllerState :=
  if indices.any (fun i => decide (¬ (0 ≤ i ∧ i < (all.length : Int)))) then none
  else
    let groups := updateAssoc st.prompt_groups name
      (dedupFirstAux [] (indices.map Int.toNat))
    some { st with prompt_groups := groups,
                   saved_groups :=
                     updateAssoc st.saved_groups st.current_preset_name groups }

/-- Modelled from the spec (§4.3): `GroupsManager.delete_prompt_group`
removes the group and persists. -/
def gm_delete_prompt_group (st : ControllerState) (name : String) :
    Option ControllerState :=
  let groups := st.prompt_groups.filter (fun g => g.1 ≠ name)
  some { st with prompt_groups := groups,
                 saved_groups :=
                   updateAssoc st.saved_groups st.current_preset_name groups }

/-- Modelled from the spec: `PromptsManager.add_prompt_to_preset` creates a
user-created prompt, appends it to the current preset's list and persists. -/
def pm_add_prompt_to_preset (st : ControllerState) (name content : String) :
    Option (Prompt × ControllerState) :=
  match st.presets.lookup st.current_preset_name with
  | none => none
  | some r =>
    let p : Prompt := ⟨name, content, Origin.userCreated⟩
    let ps := updateAssoc st.presets st.current_preset_name ⟨r.prompts ++ [p], r.pfx⟩
    some (p, { st with presets := ps })

/-- Modelled from the spec (§4.4): `PromptsManager.update_prompt` refuses to
act on prompts whose origin is `extracted`; otherwise replaces the indexed
prompt and persists. -/
def pm_update_prompt (st : ControllerState) (index : Nat)
    (name content : String) : Option (Prompt × ControllerState) :=
  match st.presets.lookup st.current_preset_name with
  | none => none
  | some r =>
    match r.prompts[index]? with
    | none => none
    | some old =>
      if old.origin = Origin.extracted then none
      else
        let p : Prompt := ⟨name, content, old.origin⟩
        let ps := updateAssoc st.presets st.current_preset_name
          ⟨r.prompts.set index p, r.pfx⟩
        some (p, { st with presets := ps })

/-- Modelled from the spec (§4.4): `PromptsManager.delete_prompt` refuses to
act on prompts whose origin is `extracted`; otherwise removes the indexed
prompt and persists. -/
def pm_delete_prompt (st : ControllerState) (index : Nat) :
    Option (Prompt × ControllerState) :=
  match st.presets.lookup st.current_preset_name with
  | none => none
  | some r =>
    match r.prompts[index]? with
    | none => none
    | some old =>
      if old.origin = Origin.extracted then none
      else
        let ps := updateAssoc st.presets st.current_preset_name
          ⟨r.prompts.eraseIdx index, r.pfx⟩
        some (old, { st with presets := ps })

/-- `Controller.get_current_prompts` (source lines 210-214), as a pure value. -/
def get_current_prompts_val (st : ControllerState) : List Prompt :=
  if st.current_preset_name = "" then []
  else psm_get_prompts st st.current_preset_name

/-- `Controller.get_current_prefix` (source lines 216-220), as a pure value. -/
def get_current_prefix_text_val (st : ControllerState) : String :=
  if st.current_preset_name = "" then ""
  else psm_get_prefix_text st st.current_preset_name

/-! ## Public controller operations (translated from `src/core/controller.py`) -/

/-- `Controller.get_preset_list` (lines 79-81). -/
def get_preset_list (st : ControllerState) : Except String (List String) :=
  Except.ok (psm_get_preset_list st)

/-- `Controller.get_current_preset_name` (lines 83-85). -/
def get_current_preset_name (st : ControllerState) : Except String String :=
  Except.ok st.current_preset_name

/-- `Controller.get_current_prompts` (lines 210-214). -/
def get_current_prompts (st : ControllerState) : Except String (List Prompt) :=
  Except.ok (get_current_prompts_val st)

/-- `Controller.get_current_prefix` (lines 216-220; renamed, `prefix` is a
Lean keyword). -/
def get_current_prefix_text (st : ControllerState) : Except String String :=
  Except.ok (get_current_prefix_text_val st)

/-- `Controller.get_active_prompts` (lines 222-224). -/
def get_active_prompts (st : ControllerState) : Except String (List Prompt) :=
  Except.ok st.active_prompts

/-- `Controller.switch_preset` (lines 87-126).  The whole body is wrapped in
`try/except`; nothing in it can raise in this model, so no catch arm appears. -/
def switch_preset (st : ControllerState) (index : Int) :
    Except String ((Bool × String) × ControllerState) :=
  let presets := psm_get_preset_list st
  if presets.length = 0 then
    Except.ok ((false, "没有可用的预设"), st)
  else if h : 0 ≤ index ∧ index.toNat < presets.length then
    let st1 := { st with active_prompts := [] }
    let newName := presets.get ⟨index.toNat, h.2⟩
    let st2 := { st1 with current_preset_name := newName }
    let st3 := { st2 with prompt_groups := gm_load_prompt_groups st2 newName }
    let current_prompts := get_current_prompts_val st3
    let st4 := { st3 with active_prompts :=
      pm_load_activation_state st3 newName current_prompts }
    Except.ok ((true, "已切换至预设"), st4)
  else
    Except.ok ((false, "无效的预设索引"), st)

/-- `Controller.create_preset` (lines 128-157). -/
def create_preset (st : ControllerState) (name : String) :
    Except String ((Bool × String) × ControllerState) :=
  if name = "" then
    Except.ok ((false, "预设名称不能为空"), st)
  else
    match psm_create_preset st name with
    | some st1 =>
      let st2 := { st1 with current_preset_name := name,
                            active_prompts := [],
                            prompt_groups := [] }
      Except.ok ((true, "已创建新预设"), st2)
    | none =>
      Except.ok ((false, "创建预设失败，预设可能已存在"), st)

/-- `Controller.refresh_prompts` (lines 159-206).  Extraction is an external
collaborator (`extractor.py` is out of scope); its outcome is passed as
`ext`: `none` models `extract_prompts()` returning `False`, `some store`
models a successful extraction after which `load_presets` loads `store`. -/
def refresh_prompts (st : ControllerState)
    (ext : Option (List (String × PresetRec))) :
    Except String ((Bool × String × Option (Nat × Nat)) × ControllerState) :=
  match ext with
  | none =>
    Except.ok ((false, "提取提示词失败，请检查日志获取详细错误信息", none), st)
  | some store =>
    let st1 := { st with presets := store }
    let st2 := { st1 with active_prompts := [] }
    let preset_list := psm_get_preset_list st2
    let st3 :=
      match preset_list with
      | [] => { st2 with current_preset_name := "" }
      | first :: _ =>
        let s := { st2 with current_preset_name := first }
        { s with prompt_groups := gm_load_prompt_groups s first }
    let preset_count := st3.presets.length
    let prompt_count := (st3.presets.map (fun pr => pr.2.prompts.length)).sum
    if preset_count > 0 then
      Except.ok ((true, "成功重新加载预设", some (preset_count, prompt_count)), st3)
    else
      Except.ok ((true, "没有找到可用的预设，请检查预设文件",
        some (preset_count, prompt_count)), st3)

/-- `Controller.activate_prompt` (lines 226-266).  The catch-all `except`
surfaces an exception from `activate_prompts` as a generic failure tuple. -/
def activate_prompt (st : ControllerState) (index : Int) :
    Except String ((Bool × String × Option Prompt) × ControllerState) :=
  let all := get_current_prompts_val st
  if all.length = 0 then
    Except.ok ((false, "当前预设中没有可用的提示词", none), st)
  else if h : 0 ≤ index ∧ index.toNat < all.length then
    let p := all.get ⟨index.toNat, h.2⟩
    if p ∈ st.active_prompts then
      Except.ok ((true, "提示词已经激活", some p), st)
    else
      match pm_activate_prompts all [index.toNat] st.active_prompts with
      | Except.ok (newActive, newly) =>
        if newly.length ≠ 0 then
          let st1 := pm_save_activation_state
            { st with active_prompts := newActive }
          Except.ok ((true, "已激活提示词", some p), st1)
        else
          Except.ok ((false, "激活提示词失败 (内部逻辑错误)", none),
            { st with active_prompts := newActive })
      | Except.error _ =>
        Except.ok ((false, "激活提示词时发生内部错误", none), st)
  else
    Except.ok ((false, "无效的提示词索引", none), st)

/-- `Controller.activate_multiple_prompts` (lines 268-316): validates every
index against the current prompt list before delegating to
`activate_prompts`; rejects the whole call if any index is out of range. -/
def activate_multiple_prompts (st : ControllerState) (indices : List Int) :
    Except String ((Bool × String × List Prompt) × ControllerState) :=
  if indices.length = 0 then
    Except.ok ((false, "提示词索引列表不能为空", []), st)
  else
    let all := get_current_prompts_val st
    if all.length = 0 then
      Except.ok ((false, "当前预设中没有可用的提示词", []), st)
    else
      let maxIdx : Int := (all.length : Int) - 1
      let invalid := indices.filter (fun i => decide (¬ (0 ≤ i ∧ i ≤ maxIdx)))
      if invalid.length ≠ 0 then
        Except.ok ((false, "无效的提示词索引", []), st)
      else
        match pm_activate_prompts all (indices.map Int.toNat)
            st.active_prompts with
        | Except.ok (newActive, newly) =>
          if newly.length ≠ 0 then
            let st1 := pm_save_activation_state
              { st with active_prompts := newActive }
            Except.ok ((true, "已成功激活提示词", newly), st1)
          else
            Except.ok ((true, "所选提示词均已激活", []),
              { st with active_prompts := newActive })
        | Except.error _ =>
          Except.ok ((false, "激活多个提示词时发生内部错误", []), st)

/-- `Controller.activate_prompt_group` (lines 318-361): resolves the group's
stored indices and passes them to `activate_prompts` without any range
validation; an exception raised there is caught by the catch-all `except`
and surfaced as a generic internal-error failure tuple. -/
def activate_prompt_group (st : ControllerState) (group_name : String) :
    Except String ((Bool × String × List Prompt) × ControllerState) :=
  let all := get_current_prompts_val st
  if all.length = 0 then
    Except.ok ((false, "当前预设中没有可用的提示词", []), st)
  else if group_name = "" then
    Except.ok ((false, "组合名称不能为空", []), st)
  else
    match gm_get_prompt_group st group_name with
    | none => Except.ok ((false, "找不到组合", []), st)
    | some indices =>
      if indices.length = 0 then
        Except.ok ((false, "组合为空", []), st)
      else
        match pm_activate_prompts all indices st.active_prompts with
        | Except.ok (newActive, newly) =>
          if newly.length ≠ 0 then
            Except.ok ((true, "已激活组合中的提示词", newly),
              { st with active_prompts := newActive })
          else
            Except.ok ((true, "组合中的提示词已全部激活", []),
              { st with active_prompts := newActive })
        | Except.error _ =>
          Except.ok ((false, "激活组合时发生内部错误", []), st)

/-- The exact index list with which `Controller.activate_prompt_group`
invokes `activate_prompts`, `none` on the paths that never reach that call
(mirrors the control flow of source lines 328-350). -/
def group_indices_passed_to_activate (st : ControllerState)
    (group_name : String) : Option (List Nat) :=
  let all := get_current_prompts_val st
  if all.length = 0 then none
  else if group_name = "" then none
  else
    match gm_get_prompt_group st group_name with
    | none => none
    | some indices =>
      if indices.length = 0 then none
      else some indices

/-- `Controller.deactivate_prompt` (lines 363-396). -/
def deactivate_prompt (st : ControllerState) (index : Int) :
    Except String ((Bool × String × Option Prompt) × ControllerState) :=
  if st.active_prompts.length = 0 then
    Except.ok ((false, "当前没有已激活的提示词", none), st)
  else if 0 ≤ index ∧ index.toNat < st.active_prompts.length then
    match pm_deactivate_prompt st.active_prompts index.toNat with
    | (some removed, newActive) =>
      let st1 := pm_save_activation_state
        { st with active_prompts := newActive }
      Except.ok ((true, "已关闭提示词", some removed), st1)
    | (none, newActive) =>
      Except.ok ((false, "关闭提示词失败 (内部逻辑错误)", none),
        { st with active_prompts := newActive })
  else
    Except.ok ((false, "无效的激活提示词索引", none), st)

/-- Insert into a descending-sorted list, keeping it descending. -/
def insertDesc (x : Nat) : List Nat → List Nat
  | [] => [x]
  | y :: ys => if x ≥ y then x :: y :: ys else y :: insertDesc x ys

/-- Python's `list.sort(reverse=True)`: sort into descending order. -/
def sortDesc (l : List Nat) : List Nat := l.foldr insertDesc []

/-- The loop of source lines 440-445: pop each index (in the given order)
from the evolving active list via `deactivate_prompt`, collecting the
successfully removed prompts. -/
def popMany (active : List Prompt) : List Nat → List Prompt × List Prompt
  | [] => ([], active)
  | i :: rest =>
    match pm_deactivate_prompt active i with
    | (some p, a1) =>
      let r := popMany a1 rest
      (p :: r.1, r.2)
    | (none, a1) => popMany a1 rest

/-- `Controller.deactivate_multiple_prompts` (lines 398-457): partitions the
given indices into valid and invalid against the active list, fails only if
no index is valid, sorts the valid ones in descending order and pops them
one by one. -/
def deactivate_multiple_prompts (st : ControllerState) (indices : List Int) :
    Except String ((Bool × String × List Prompt) × ControllerState) :=
  if indices.length = 0 then
    Except.ok ((false, "提示词索引列表不能为空", []), st)
  else if st.active_prompts.length = 0 then
    Except.ok ((false, "当前没有已激活的提示词", []), st)
  else
    let maxIdx : Int := (st.active_prompts.length : Int) - 1
    let valid := indices.filter (fun i => decide (0 ≤ i ∧ i ≤ maxIdx))
    let invalid := indices.filter (fun i => decide (¬ (0 ≤ i ∧ i ≤ maxIdx)))
    if invalid.length ≠ 0 ∧ valid.length = 0 then
      Except.ok ((false, "无效的激活提示词索引", []), st)
    else
      let sorted := sortDesc (valid.map Int.toNat)
      let res := popMany st.active_prompts sorted
      if res.1.length ≠ 0 then
        Except.ok ((true, "已成功关闭提示词", res.1),
          { st with active_prompts := res.2 })
      else
        Except.ok ((false, "未能关闭任何提示词", []),
          { st with active_prompts := res.2 })

/-- `Controller.deactivate_prompt_group` (lines 459-528): resolves the
group's stored indices against the current full prompt list, skips
out-of-range indices (`all[i]?` is `none` exactly when `i` is out of range),
fails if no prompt remains, and removes the remaining prompts from the
active list by value. -/
def deactivate_prompt_group (st : ControllerState) (group_name : String) :
    Except String ((Bool × String × List Prompt) × ControllerState) :=
  if st.current_preset_name = "" then
    Except.ok ((false, "当前未选择预设", []), st)
  else if group_name = "" then
    Except.ok ((false, "组合名称不能为空", []), st)
  else
    match gm_get_prompt_group st group_name with
    | none => Except.ok ((false, "找不到组合", []), st)
    | some indices =>
      if indices.length = 0 then
        Except.ok ((true, "组合为空，无需关闭", []), st)
      else
        let all := get_current_prompts_val st
        if all.length = 0 then
          Except.ok ((false, "当前预设中没有可用的提示词", []), st)
        else
          let prompts_to_deactivate := indices.filterMap (fun i => all[i]?)
          if prompts_to_deactivate.length = 0 then
            Except.ok ((false, "组合中的索引无效或未找到对应提示词", []), st)
          else
            let res := pm_deactivate_prompts_by_reference st.active_prompts
              prompts_to_deactivate
            let st1 := { st with active_prompts := res.2 }
            if res.1.length ≠ 0 then
              Except.ok ((true, "已关闭组合中的提示词", res.1), st1)
            else
              Except.ok ((true, "组合中的提示词均未激活", []), st1)

/-- `Controller.clear_active_prompts` (lines 530-547). -/
def clear_active_prompts (st : ControllerState) :
    Except String ((Bool × String × Int) × ControllerState) :=
  let count := st.active_prompts.length
  let st1 := { st with active_prompts := [] }
  if count = 0 then
    Except.ok ((true, "当前没有激活的提示词", 0), st1)
  else
    Except.ok ((true, "已清空激活的提示词", (count : Int)), st1)

/-- `Controller.add_prompt` (lines 549-583). -/
def add_prompt (st : ControllerState) (name content : String) :
    Except String ((Bool × String × Option Prompt) × ControllerState) :=
  if st.current_preset_name = "" then
    Except.ok ((false, "当前未选择预设", none), st)
  else if name = "" then
    Except.ok ((false, "提示词名称不能为空", none), st)
  else if content = "" then
    Except.ok ((false, "提示词内容不能为空", none), st)
  else
    match pm_add_prompt_to_preset st name content with
    | some (p, st1) => Except.ok ((true, "成功添加提示词", some p), st1)
    | none =>
      Except.ok ((false, "添加提示词失败 (可能是文件写入错误)", none), st)

/-- `Controller.update_prompt` (lines 585-637). -/
def update_prompt (st : ControllerState) (index : Int)
    (name content : String) :
    Except String ((Bool × String × Option Prompt) × ControllerState) :=
  if st.current_preset_name = "" then
    Except.ok ((false, "当前未选择预设", none), st)
  else if name = "" then
    Except.ok ((false, "提示词名称不能为空", none), st)
  else if content = "" then
    Except.ok ((false, "提示词内容不能为空", none), st)
  else
    let all := get_current_prompts_val st
    if all.length = 0 then
      Except.ok ((false, "当前预设中没有可用的提示词", none), st)
    else if 0 ≤ index ∧ index.toNat < all.length then
      match pm_update_prompt st index.toNat name content with
      | some (p, st1) => Except.ok ((true, "已修改提示词", some p), st1)
      | none =>
        Except.ok ((false, "修改提示词失败 (无效索引、非用户创建或文件错误)", none), st)
    else
      Except.ok ((false, "无效的提示词索引", none), st)

/-- `Controller.delete_prompt` (lines 639-674). -/
def delete_prompt (st : ControllerState) (index : Int) :
    Except String ((Bool × String × Option Prompt) × ControllerState) :=
  if st.current_preset_name = "" then
    Except.ok ((false, "当前未选择预设", none), st)
  else
    let all := get_current_prompts_val st
    if all.length = 0 then
      Except.ok ((false, "当前预设中没有可用的提示词", none), st)
    else if 0 ≤ index ∧ index.toNat < all.length then
      match pm_delete_prompt st index.toNat with
      | some (p, st1) => Except.ok ((true, "已删除提示词", some p), st1)
      | none =>
        Except.ok ((false, "删除提示词失败 (无效索引、非用户创建或文件错误)", none), st)
    else
      Except.ok ((false, "无效的提示词索引", none), st)

/-- `Controller.get_prompt_groups` (lines 678-680). -/
def get_prompt_groups (st : ControllerState) :
    Except String (List (String × List Nat)) :=
  Except.ok (gm_get_all_groups st)

/-- `Controller.get_prompt_group` (lines 682-692). -/
def get_prompt_group (st : ControllerState) (name : String) :
    Except String (Option (List Nat)) :=
  Except.ok (gm_get_prompt_group st name)

/-- `Controller.create_prompt_group` (lines 694-723). -/
def create_prompt_group (st : ControllerState) (name : String)
    (indices : List Int) :
    Except String ((Bool × String) × ControllerState) :=
  if st.current_preset_name = "" then
    Except.ok ((false, "当前未选择预设"), st)
  else if name = "" then
    Except.ok ((false, "组合名称不能为空"), st)
  else
    let all := get_current_prompts_val st
    match gm_create_prompt_group st name indices all with
    | some st1 => Except.ok ((true, "已创建提示词组合"), st1)
    | none =>
      Except.ok ((false, "创建组合失败 (组名已存在、索引无效或保存错误)"), st)

/-- `Controller.update_prompt_group` (lines 725-754). -/
def update_prompt_group (st : ControllerState) (name : String)
    (indices : List Int) :
    Except String ((Bool × String) × ControllerState) :=
  if st.current_preset_name = "" then
    Except.ok ((false, "当前未选择预设"), st)
  else if (st.prompt_groups.lookup name).isNone then
    Except.ok ((false, "组合不存在"), st)
  else
    let all := get_current_prompts_val st
    match gm_update_prompt_group st name indices all with
    | some st1 => Except.ok ((true, "已更新提示词组合"), st1)
    | none =>
      Except.ok ((false, "更新组合失败 (索引无效或保存错误)"), st)

/-- `Controller.delete_prompt_group` (lines 756-782). -/
def delete_prompt_group (st : ControllerState) (name : String) :
    Except String ((Bool × String) × ControllerState) :=
  if st.current_preset_name = "" then
    Except.ok ((false, "当前未选择预设"), st)
  else if (st.prompt_groups.lookup name).isNone then
    Except.ok ((false, "组合不存在"), st)
  else
    match gm_delete_prompt_group st name with
    | some st1 => Except.ok ((true, "已删除提示词组合"), st1)
    | none => Except.ok ((false, "删除组合失败 (保存错误)"), st)

/-- `Controller.process_llm_request` (lines 785-829): prepends the current
prefix (if non-empty) and the non-empty contents of the active prompts, in
order, each segment joined by a blank line, to the system prompt; the user
prompt is returned unchanged. -/
def process_llm_request (st : ControllerState)
    (system_prompt user_prompt : String) : Except String (String × String) :=
  let active := st.active_prompts
  let current_pfx := get_current_prefix_text_val st
  let parts0 : List String := if current_pfx ≠ "" then [current_pfx] else []
  let parts :=
    parts0 ++ (active.map (fun p => p.content)).filter (fun c => decide (c ≠ ""))
  if parts.length ≠ 0 then
    let prepend_str := joinSep "\n\n" parts
    if system_prompt ≠ "" then
      Except.ok (prepend_str ++ "\n\n" ++ system_prompt, user_prompt)
    else
      Except.ok (prepend_str, user_prompt)
  else
    Except.ok (system_prompt, user_prompt)

/-- `Controller.terminate` (lines 831-834). -/
def terminate (st : ControllerState) :
    Except String (Unit × ControllerState) :=
  Except.ok ((), { st with active_prompts := [] })

/-! ## Claim-side constructions and concrete states -/

/-- The construction of the new system text asserted by claim C1, following
the claim's words: join, with a blank line between segments, the prefix (if
non-empty), then each active prompt's content in ActiveSet order, then the
original system text (omitted when empty, so that the prepend block alone is
the result). -/
def claim_new_system (pfxText : String) (active : List Prompt)
    (system_text : String) : String :=
  joinSep "\n\n"
    ((if pfxText = "" then [] else [pfxText]) ++
      active.map (fun p => p.content) ++
      (if system_text = "" then [] else [system_text]))

/-- The amended construction: as `claim_new_system`, but only the non-empty
contents of the active prompts contribute segments (the code skips empty
contents, source lines 812-814). -/
def amended_new_system (pfxText : String) (active : List Prompt)
    (system_text : String) : String :=
  joinSep "\n\n"
    ((if pfxText = "" then [] else [pfxText]) ++
      (active.map (fun p => p.content)).filter (fun c => decide (c ≠ "")) ++
      (if system_text = "" then [] else [system_text]))

/-- An extracted prompt whose content is the empty string. -/
def promptEmptyContent : Prompt := ⟨"e", "", Origin.extracted⟩

/-- A state whose single preset has an empty prefix and one active prompt
with empty content. -/
def stateEmptyContent : ControllerState :=
  { current_preset_name := "P"
    presets := [("P", ⟨[promptEmptyContent], ""⟩)]
    active_prompts := [promptEmptyContent]
    prompt_groups := []
    saved_groups := []
    saved_activation := [] }

/-- The prompts of the spec's §8 scenario: preset `P` has prompts `[A,B,C]`
and prefix `"SYS"`. -/
def promptA : Prompt := ⟨"A", "A.content", Origin.extracted⟩

def promptB : Prompt := ⟨"B", "B.content", Origin.extracted⟩

def promptC : Prompt := ⟨"C", "C.content", Origin.extracted⟩

/-- The spec's §8 scenario state after activating indices `[0,2]`:
ActiveSet = `[A,C]`. -/
def stateScenario : ControllerState :=
  { current_preset_name := "P"
    presets := [("P", ⟨[promptA, promptB, promptC], "SYS"⟩)]
    active_prompts := [promptA, promptC]
    prompt_groups := []
    saved_groups := []
    saved_activation := [] }

/-! ## Helper lemmas -/

theorem joinSep_cons_cons (sep a b : String) (t : List String) :
    joinSep sep (a :: b :: t) = a ++ sep ++ joinSep sep (b :: t) := rfl

theorem joinSep_append_singleton (sep x : String) :
    ∀ (l : List String), l ≠ [] →
      joinSep sep (l ++ [x]) = joinSep sep l ++ sep ++ x
  | [], h => absurd rfl h
  | [a], _ => rfl
  | a :: b :: t, _ => by
    have ih := joinSep_append_singleton sep x (b :: t) (by simp)
    simp only [List.cons_append] at ih ⊢
    rw [joinSep_cons_cons, joinSep_cons_cons, ih]
    simp only [String.append_assoc]

/-- The branch structure of `process_llm_request` (source lines 816-824)
computes exactly the single join of the segments followed by the optional
original system text. -/
theorem process_branches_eq_join (parts : List String) (sys : String) :
    (if parts.length ≠ 0 then
      (if sys ≠ "" then joinSep "\n\n" parts ++ "\n\n" ++ sys
       else joinSep "\n\n" parts)
     else sys)
    = joinSep "\n\n" (parts ++ (if sys = "" then [] else [sys])) := by
  by_cases hp : parts.length ≠ 0
  · by_cases hs : sys = ""
    · simp [hp, hs]
    · simp only [hp, if_true, hs, if_false, ite_not]
      rw [joinSep_append_singleton "\n\n" sys parts
        (by intro h; exact hp (by simp [h]))]
  · have hnil : parts = [] := by
      cases parts with
      | nil => rfl
      | cons a t => simp at hp
    subst hnil
    by_cases hs : sys = ""
    · simp [hs, joinSep]
    · simp [hs, joinSep]

/-! ## Claim C1 -/

/-- C1 (counterexample): claim C1 asserts that `process_llm_request` builds
the new system text by joining the prefix (if non-empty), EVERY active
prompt's content, and the original system text with blank lines.  In a state
with an empty prefix and a single active prompt whose content is empty, the
claimed construction yields `"\n\norig"`, but the code skips the empty
content and returns `"orig"` unchanged: the claim is false as stated. -/
theorem C1_counterexample :
    process_llm_request stateEmptyContent "orig" "u" = Except.ok ("orig", "u") ∧
    claim_new_system (get_current_prefix_text_val stateEmptyContent)
      stateEmptyContent.active_prompts "orig" = "\n\norig" ∧
    process_llm_request stateEmptyContent "orig" "u" ≠
      Except.ok (claim_new_system (get_current_prefix_text_val stateEmptyContent)
        stateEmptyContent.active_prompts "orig", "u") := by
  refine ⟨rfl, rfl, ?_⟩
  intro h
  rw [show process_llm_request stateEmptyContent "orig" "u" =
    Except.ok ("orig", "u") from rfl] at h
  simp only [Except.ok.injEq, Prod.mk.injEq] at h
  exact absurd h.1 (by decide)

/-- C1 (amended): for every state and every system and user text,
`process_llm_request` returns the user text unchanged together with the
system text obtained by joining, with a blank line between segments, the
prefix (if non-empty), then each active prompt's NON-EMPTY content in
ActiveSet order, then the original system text (omitted when empty, in which
case the prepend block alone is the result; with no prefix and no non-empty
active content the system text is returned unchanged).  In particular the
spec's §8 scenario holds: prompts `[A,B,C]`, prefix `"SYS"`,
ActiveSet `[A,C]` gives `("SYS\n\nA.content\n\nC.content\n\norig", "u")`. -/
theorem C1_amended :
    (∀ (st : ControllerState) (sys user : String),
      process_llm_request st sys user =
        Except.ok (amended_new_system (get_current_prefix_text_val st)
          st.active_prompts sys, user)) ∧
    process_llm_request stateScenario "orig" "u" =
      Except.ok ("SYS\n\nA.content\n\nC.content\n\norig", "u") := by
  constructor
  · intro st sys user
    have key := process_branches_eq_join
      ((if get_current_prefix_text_val st ≠ "" then [get_current_prefix_text_val st]
        else []) ++
        (st.active_prompts.map (fun p => p.content)).filter (fun c => decide (c ≠ "")))
      sys
    have hpfxite :
        (if get_current_prefix_text_val st = "" then ([] : List String)
         else [get_current_prefix_text_val st]) =
        (if get_current_prefix_text_val st ≠ "" then [get_current_prefix_text_val st]
         else []) := by
      by_cases h : get_current_prefix_text_val st = "" <;> simp [h]
    simp only [process_llm_request, amended_new_system]
    rw [hpfxite, ← key]
    split_ifs <;> rfl
  · rfl

/-! ## Claim C9 -/

theorem get_current_prefix_text_val_set_active (st : ControllerState)
    (l : List Prompt) :
    get_current_prefix_text_val { st with active_prompts := l } =
      get_current_prefix_text_val st := rfl

theorem filter_content_comm (active : List Prompt) :
    (List.map (fun p => p.content)
        (active.filter (fun p => decide (p.content ≠ "")))).filter
      (fun c => decide (c ≠ "")) =
    (List.map (fun p => p.content) active).filter (fun c => decide (c ≠ "")) := by
  induction active with
  | nil => rfl
  | cons a t ih =>
    by_cases h : a.content = ""
    · simp only [decide_not] at ih ⊢
      simp [h, ih]
    · simp only [decide_not] at ih ⊢
      simp [h, ih]

/-- C9: `process_llm_request` omits every active prompt whose content is the
empty string (dropping such prompts from the ActiveSet changes nothing), and
with an empty prefix and only empty-content active prompts the system text
is returned unchanged. -/
theorem C9_empty_segments_omitted :
    (∀ (st : ControllerState) (sys user : String),
      process_llm_request st sys user =
        process_llm_request
          { st with active_prompts :=
              st.active_prompts.filter (fun p => decide (p.content ≠ "")) }
          sys user) ∧
    (∀ (st : ControllerState) (sys user : String),
      (∀ p ∈ st.active_prompts, p.content = "") →
      get_current_prefix_text_val st = "" →
      process_llm_request st sys user = Except.ok (sys, user)) := by
  constructor
  · intro st sys user
    simp only [process_llm_request, get_current_prefix_text_val_set_active]
    rw [filter_content_comm]
  · intro st sys user hall hpfx
    have hfil : (List.map (fun p => p.content) st.active_prompts).filter
        (fun c => decide (c ≠ "")) = [] := by
      apply List.filter_eq_nil_iff.mpr
      intro c hc
      simp only [List.mem_map] at hc
      obtain ⟨p, hp, rfl⟩ := hc
      simp [hall p hp]
    simp only [process_llm_request, hpfx]
    rw [if_neg (show ¬ (("" : String) ≠ "") by simp), List.nil_append, hfil]
    simp

/-- Witness for C9: in the concrete state with one empty-content active
prompt and empty prefix, the request is passed through unchanged. -/
theorem C9_witness :
    process_llm_request stateEmptyContent "sys0" "u0" = Except.ok ("sys0", "u0") :=
  C9_empty_segments_omitted.2 stateEmptyContent "sys0" "u0" (by decide) (by decide)

/-! ## Claim C8 -/

/-- C8: for every index outside the range of the current preset list
(including when the list is empty), `switch_preset` returns a failure
outcome and leaves the whole session state — in particular
`current_preset_name`, the active set and the loaded groups — unchanged. -/
theorem C8_switch_preset_invalid :
    ∀ (st : ControllerState) (index : Int),
      ¬ (0 ≤ index ∧ index < ((psm_get_preset_list st).length : Int)) →
      ∃ m, switch_preset st index = Except.ok ((false, m), st) := by
  intro st index h
  by_cases h0 : (psm_get_preset_list st).length = 0
  · exact ⟨_, by simp only [switch_preset]; rw [if_pos h0]⟩
  · have hcond : ¬ (0 ≤ index ∧ index.toNat < (psm_get_preset_list st).length) := by
      intro hc
      exact h ⟨hc.1, by omega⟩
    exact ⟨_, by simp only [switch_preset]; rw [if_neg h0, dif_neg hcond]⟩

/-- Witness for C8: switching to index 5 in the scenario state (one preset)
fails and leaves the state unchanged. -/
theorem C8_witness :
    ∃ m, switch_preset stateScenario 5 = Except.ok ((false, m), stateScenario) :=
  C8_switch_preset_invalid stateScenario 5 (by decide)

/-! ## Claim C10 -/

/-- A state with a selected preset that stores an existing but empty group. -/
def stateEmptyGroup : ControllerState :=
  { current_preset_name := "P"
    presets := [("P", ⟨[promptA], ""⟩)]
    active_prompts := [promptA]
    prompt_groups := [("g", [])]
    saved_groups := []
    saved_activation := [] }

/-- C10: on an existing but empty group, `deactivate_prompt_group` succeeds
with an empty removed list and an unchanged state, while
`activate_prompt_group` fails (also leaving the state unchanged). -/
theorem C10_empty_group :
    ∀ (st : ControllerState) (g : String),
      st.current_preset_name ≠ "" → g ≠ "" →
      gm_get_prompt_group st g = some [] →
      (∃ m, deactivate_prompt_group st g = Except.ok ((true, m, []), st)) ∧
      (∃ m, activate_prompt_group st g = Except.ok ((false, m, []), st)) := by
  intro st g hc hg hgrp
  constructor
  · refine ⟨"组合为空，无需关闭", ?_⟩
    simp only [deactivate_prompt_group]
    rw [if_neg hc, if_neg hg, hgrp]
    rfl
  · by_cases hall : (get_current_prompts_val st).length = 0
    · exact ⟨_, by simp only [activate_prompt_group]; rw [if_pos hall]⟩
    · refine ⟨"组合为空", ?_⟩
      simp only [activate_prompt_group]
      rw [if_neg hall, if_neg hg, hgrp]
      rfl

/-- Witness for C10 at the concrete empty-group state. -/
theorem C10_witness :
    (∃ m, deactivate_prompt_group stateEmptyGroup "g" =
      Except.ok ((true, m, []), stateEmptyGroup)) ∧
    (∃ m, activate_prompt_group stateEmptyGroup "g" =
      Except.ok ((false, m, []), stateEmptyGroup)) :=
  C10_empty_group stateEmptyGroup "g" (by decide) (by decide) (by decide)

/-! ## Claim C6 -/

/-- C6: `refresh_prompts` with a successful extraction replaces the store,
clears the active set, sets `current_preset_name` to the first available
preset name (or `""` if none), reloads that preset's groups, and returns a
success outcome whose statistics are the number of presets and the total
number of prompts; with a failed extraction it returns a failure outcome
with empty statistics and the state — in particular `current_preset_name`
and the active set — unchanged. -/
theorem C6_refresh_prompts :
    ∀ (st : ControllerState) (store : List (String × PresetRec)),
      (∃ m, refresh_prompts st (some store) =
        Except.ok ((true, m, some (store.length,
            (store.map (fun pr => pr.2.prompts.length)).sum)),
          { st with
            presets := store,
            active_prompts := [],
            current_preset_name := (store.map (fun pr => pr.1)).headD "",
            prompt_groups :=
              match store with
              | [] => st.prompt_groups
              | (n, _) :: _ => (st.saved_groups.lookup n).getD [] })) ∧
      (∃ m, refresh_prompts st none = Except.ok ((false, m, none), st)) := by
  intro st store
  constructor
  · cases store with
    | nil => exact ⟨_, rfl⟩
    | cons hd rest =>
      obtain ⟨n, r⟩ := hd
      refine ⟨"成功重新加载预设", ?_⟩
      simp only [refresh_prompts, psm_get_preset_list, List.map_cons]
      rw [if_pos (by simp)]
      simp [gm_load_prompt_groups]
  · exact ⟨_, rfl⟩

/-! ## Lemmas about `pm_activate_prompts` -/

theorem pm_activate_prompts_ok (all : List Prompt) :
    ∀ (idxs : List Nat) (active : List Prompt),
      (∀ i ∈ idxs, i < all.length) →
      ∃ fin newly, pm_activate_prompts all idxs active = Except.ok (fin, newly)
  | [], active, _ => ⟨active, [], rfl⟩
  | i :: rest, active, h => by
    have hi : i < all.length := h i (List.mem_cons_self i rest)
    have hr : ∀ j ∈ rest, j < all.length := fun j hj => h j (List.mem_cons_of_mem i hj)
    simp only [pm_activate_prompts, dif_pos hi]
    by_cases hmem : all[i] ∈ active
    · rw [if_pos hmem]
      exact pm_activate_prompts_ok all rest active hr
    · rw [if_neg hmem]
      obtain ⟨f, nl, hrec⟩ := pm_activate_prompts_ok all rest (active ++ [all[i]]) hr
      rw [hrec]
      exact ⟨f, all[i] :: nl, rfl⟩

theorem pm_activate_prompts_sub (all : List Prompt) :
    ∀ (idxs : List Nat) (active fin newly : List Prompt),
      pm_activate_prompts all idxs active = Except.ok (fin, newly) →
      ∃ s, fin = active ++ s
  | [], active, fin, newly, heq => by
    simp only [pm_activate_prompts, Except.ok.injEq, Prod.mk.injEq] at heq
    exact ⟨[], by rw [← heq.1, List.append_nil]⟩
  | i :: rest, active, fin, newly, heq => by
    by_cases hi : i < all.length
    · simp only [pm_activate_prompts, dif_pos hi] at heq
      by_cases hmem : all[i] ∈ active
      · rw [if_pos hmem] at heq
        exact pm_activate_prompts_sub all rest active fin newly heq
      · rw [if_neg hmem] at heq
        cases hrec : pm_activate_prompts all rest (active ++ [all[i]]) with
        | ok v =>
          obtain ⟨f2, n2⟩ := v
          simp only [hrec, Except.ok.injEq, Prod.mk.injEq] at heq
          obtain ⟨s, hs⟩ := pm_activate_prompts_sub all rest (active ++ [all[i]]) f2 n2 hrec
          exact ⟨all[i] :: s, by rw [← heq.1, hs]; simp⟩
        | error e =>
          rw [hrec] at heq
          exact Except.noConfusion heq
    · simp only [pm_activate_prompts, dif_neg hi] at heq
      exact Except.noConfusion heq

theorem pm_activate_prompts_mem (all : List Prompt) :
    ∀ (idxs : List Nat) (active fin newly : List Prompt),
      pm_activate_prompts all idxs active = Except.ok (fin, newly) →
      ∀ (j : Nat) (hj : j < all.length), j ∈ idxs → all[j] ∈ fin
  | [], _, _, _, _, j, _, hjm => absurd hjm (List.not_mem_nil j)
  | i :: rest, active, fin, newly, heq, j, hj, hjm => by
    by_cases hi : i < all.length
    · simp only [pm_activate_prompts, dif_pos hi] at heq
      by_cases hmem : all[i] ∈ active
      · rw [if_pos hmem] at heq
        rcases List.mem_cons.mp hjm with hje | hjr
        · subst hje
          obtain ⟨s, hs⟩ := pm_activate_prompts_sub all rest active fin newly heq
          rw [hs]
          exact List.mem_append_left s hmem
        · exact pm_activate_prompts_mem all rest active fin newly heq j hj hjr
      · rw [if_neg hmem] at heq
        cases hrec : pm_activate_prompts all rest (active ++ [all[i]]) with
        | ok v =>
          obtain ⟨f2, n2⟩ := v
          simp only [hrec, Except.ok.injEq, Prod.mk.injEq] at heq
          rcases List.mem_cons.mp hjm with hje | hjr
          · subst hje
            obtain ⟨s, hs⟩ :=
              pm_activate_prompts_sub all rest (active ++ [all[j]]) f2 n2 hrec
            rw [← heq.1, hs]
            simp
          · rw [← heq.1]
            exact pm_activate_prompts_mem all rest (active ++ [all[i]]) f2 n2 hrec j hj hjr
        | error e =>
          rw [hrec] at heq
          exact Except.noConfusion heq
    · simp only [pm_activate_prompts, dif_neg hi] at heq
      exact Except.noConfusion heq

theorem pm_activate_prompts_noop (all : List Prompt) :
    ∀ (idxs : List Nat) (active : List Prompt),
      (∀ i ∈ idxs, i < all.length) →
      (∀ (i : Nat) (hi : i < all.length), i ∈ idxs → all[i] ∈ active) →
      pm_activate_prompts all idxs active = Except.ok (active, [])
  | [], _, _, _ => rfl
  | i :: rest, active, h, h2 => by
    have hi : i < all.length := h i (List.mem_cons_self i rest)
    have hmem : all[i] ∈ active := h2 i hi (List.mem_cons_self i rest)
    simp only [pm_activate_prompts, dif_pos hi, if_pos hmem]
    exact pm_activate_prompts_noop all rest active
      (fun j hj => h j (List.mem_cons_of_mem i hj))
      (fun j hj hjm => h2 j hj (List.mem_cons_of_mem i hjm))

/-! ## Claim C4 -/

theorem activate_multiple_prompts_all_active (st : ControllerState)
    (indices : List Int) (hne : indices ≠ [])
    (hval : ∀ i ∈ indices, 0 ≤ i ∧ i < ((get_current_prompts_val st).length : Int))
    (hmem : ∀ (j : Nat) (hj : j < (get_current_prompts_val st).length),
      j ∈ indices.map Int.toNat → (get_current_prompts_val st)[j] ∈ st.active_prompts) :
    activate_multiple_prompts st indices =
      Except.ok ((true, "所选提示词均已激活", []), st) := by
  obtain ⟨i0, hi0⟩ := List.exists_mem_of_ne_nil indices hne
  have hlenpos : 0 < (get_current_prompts_val st).length := by
    have := hval i0 hi0
    omega
  have hlen0 : ¬ ((get_current_prompts_val st).length = 0) := by omega
  have hfit : ∀ j ∈ indices.map Int.toNat, j < (get_current_prompts_val st).length := by
    intro j hj
    simp only [List.mem_map] at hj
    obtain ⟨i, hi, rfl⟩ := hj
    have := hval i hi
    omega
  have hinval : indices.filter
      (fun i => decide (¬ (0 ≤ i ∧ i ≤ ((get_current_prompts_val st).length : Int) - 1))) = [] := by
    apply List.filter_eq_nil_iff.mpr
    intro i hi
    have := hval i hi
    simp only [decide_eq_true_eq]
    omega
  have hlength : ¬ (indices.length = 0) := by
    cases indices
    · exact absurd rfl hne
    · simp
  simp only [activate_multiple_prompts]
  rw [if_neg hlength, if_neg hlen0, hinval, if_neg (by simp),
    pm_activate_prompts_noop (get_current_prompts_val st) (indices.map Int.toNat)
      st.active_prompts hfit hmem]
  rfl

/-- C4: activation is idempotent: for a non-empty list of valid indices into
the current prompt list, the first `activate_multiple_prompts` call returns
a success outcome, and repeating the call on the resulting state (with no
intervening mutation) returns a success outcome with an empty
newly-activated list and leaves the whole state — in particular the
ActiveSet, its contents, order and size — unchanged. -/
theorem C4_activate_idempotent :
    ∀ (st : ControllerState) (indices : List Int),
      indices ≠ [] →
      (∀ i ∈ indices, 0 ≤ i ∧ i < ((get_current_prompts_val st).length : Int)) →
      ∃ r1 st1,
        activate_multiple_prompts st indices = Except.ok (r1, st1) ∧
        activate_multiple_prompts st1 indices =
          Except.ok ((true, "所选提示词均已激活", []), st1) := by
  intro st indices hne hval
  obtain ⟨i0, hi0⟩ := List.exists_mem_of_ne_nil indices hne
  have hlenpos : 0 < (get_current_prompts_val st).length := by
    have := hval i0 hi0
    omega
  have hlen0 : ¬ ((get_current_prompts_val st).length = 0) := by omega
  have hfit : ∀ j ∈ indices.map Int.toNat, j < (get_current_prompts_val st).length := by
    intro j hj
    simp only [List.mem_map] at hj
    obtain ⟨i, hi, rfl⟩ := hj
    have := hval i hi
    omega
  have hinval : indices.filter
      (fun i => decide (¬ (0 ≤ i ∧ i ≤ ((get_current_prompts_val st).length : Int) - 1))) = [] := by
    apply List.filter_eq_nil_iff.mpr
    intro i hi
    have := hval i hi
    simp only [decide_eq_true_eq]
    omega
  have hlength : ¬ (indices.length = 0) := by
    cases indices
    · exact absurd rfl hne
    · simp
  obtain ⟨fin, newly, heq⟩ := pm_activate_prompts_ok (get_current_prompts_val st)
    (indices.map Int.toNat) st.active_prompts hfit
  have hmemfin : ∀ (j : Nat) (hj : j < (get_current_prompts_val st).length),
      j ∈ indices.map Int.toNat → (get_current_prompts_val st)[j] ∈ fin :=
    pm_activate_prompts_mem (get_current_prompts_val st) (indices.map Int.toNat)
      st.active_prompts fin newly heq
  have hfirst : activate_multiple_prompts st indices =
      (if newly.length ≠ 0 then
        Except.ok ((true, "已成功激活提示词", newly),
          pm_save_activation_state { st with active_prompts := fin })
      else
        Except.ok ((true, "所选提示词均已激活", []),
          { st with active_prompts := fin })) := by
    simp only [activate_multiple_prompts]
    rw [if_neg hlength, if_neg hlen0, hinval, if_neg (by simp), heq]
  by_cases hnew : newly.length ≠ 0
  · refine ⟨(true, "已成功激活提示词", newly),
      pm_save_activation_state { st with active_prompts := fin },
      by rw [hfirst, if_pos hnew], ?_⟩
    exact activate_multiple_prompts_all_active
      (pm_save_activation_state { st with active_prompts := fin }) indices hne
      (fun i hi => hval i hi)
      (fun j hj hjm => hmemfin j hj hjm)
  · refine ⟨(true, "所选提示词均已激活", []),
      { st with active_prompts := fin },
      by rw [hfirst, if_neg hnew], ?_⟩
    exact activate_multiple_prompts_all_active
      { st with active_prompts := fin } indices hne
      (fun i hi => hval i hi)
      (fun j hj hjm => hmemfin j hj hjm)

/-- Witness for C4 at the scenario state with index list `[0, 2]`. -/
theorem C4_witness :
    ∃ r1 st1,
      activate_multiple_prompts stateScenario [0, 2] = Except.ok (r1, st1) ∧
      activate_multiple_prompts st1 [0, 2] =
        Except.ok ((true, "所选提示词均已激活", []), st1) :=
  C4_activate_idempotent stateScenario [0, 2] (by decide) (by decide)

/-! ## Claim C5 -/

theorem mem_insertDesc (x a : Nat) :
    ∀ (l : List Nat), a ∈ insertDesc x l ↔ a = x ∨ a ∈ l
  | [] => by simp [insertDesc]
  | y :: ys => by
    by_cases h : x ≥ y
    · simp [insertDesc, h]
    · simp only [insertDesc, if_neg h, List.mem_cons, mem_insertDesc x a ys]
      tauto

theorem insertDesc_pairwise (x : Nat) :
    ∀ (l : List Nat), List.Pairwise (fun a b => a ≥ b) l →
      List.Pairwise (fun a b => a ≥ b) (insertDesc x l)
  | [], _ => by simp [insertDesc]
  | y :: ys, h => by
    rcases List.pairwise_cons.mp h with ⟨hy, hys⟩
    by_cases hxy : x ≥ y
    · simp only [insertDesc, if_pos hxy]
      refine List.pairwise_cons.mpr ⟨?_, h⟩
      intro b hb
      rcases List.mem_cons.mp hb with rfl | hb2
      · exact hxy
      · exact le_trans (hy b hb2) hxy
    · simp only [insertDesc, if_neg hxy]
      refine List.pairwise_cons.mpr ⟨?_, insertDesc_pairwise x ys hys⟩
      intro b hb
      rcases (mem_insertDesc x b ys).mp hb with rfl | hb2
      · omega
      · exact hy b hb2

theorem sortDesc_pairwise (l : List Nat) :
    List.Pairwise (fun a b => a ≥ b) (sortDesc l) := by
  induction l with
  | nil => simp [sortDesc]
  | cons a t ih => exact insertDesc_pairwise a (sortDesc t) ih

theorem insertDesc_perm (x : Nat) :
    ∀ (l : List Nat), (insertDesc x l).Perm (x :: l)
  | [] => List.Perm.refl _
  | y :: ys => by
    by_cases h : x ≥ y
    · simp [insertDesc, h]
    · simp only [insertDesc, if_neg h]
      exact ((insertDesc_perm x ys).cons y).trans (List.Perm.swap x y ys)

theorem sortDesc_perm (l : List Nat) : (sortDesc l).Perm l := by
  induction l with
  | nil => exact List.Perm.refl _
  | cons a t ih => exact (insertDesc_perm a (sortDesc t)).trans (ih.cons a)

theorem sortDesc_strict (l : List Nat) (h : l.Nodup) :
    List.Pairwise (fun a b => a > b) (sortDesc l) := by
  have h2 : (sortDesc l).Nodup := ((sortDesc_perm l).nodup_iff).mpr h
  exact ((sortDesc_pairwise l).and h2).imp (fun hab => by omega)

/-- Popping strictly descending in-range positions removes exactly the
entries of the original list at those positions (earlier removals never
shift the positions of the later ones). -/
theorem popMany_removed :
    ∀ (idxs : List Nat) (active : List Prompt),
      List.Pairwise (fun a b => a > b) idxs →
      (∀ i ∈ idxs, i < active.length) →
      (popMany active idxs).1 = idxs.map (fun i => active.getD i default) ∧
      (popMany active idxs).2.length = active.length - idxs.length
  | [], active, _, _ => ⟨rfl, rfl⟩
  | i :: rest, active, hsorted, hin => by
    have hi : i < active.length := hin i (List.mem_cons_self i rest)
    rcases List.pairwise_cons.mp hsorted with ⟨hhead, htail⟩
    have hlen : (active.eraseIdx i).length = active.length - 1 := by
      rw [List.length_eraseIdx]
      simp [hi]
    have hin2 : ∀ j ∈ rest, j < (active.eraseIdx i).length := by
      intro j hj
      have := hhead j hj
      omega
    obtain ⟨ih1, ih2⟩ := popMany_removed rest (active.eraseIdx i) htail hin2
    simp only [popMany, pm_deactivate_prompt, dif_pos hi]
    constructor
    · simp only [List.map_cons, ih1]
      congr 1
      · exact (List.getD_eq_getElem active default hi).symm
      · apply List.map_congr_left
        intro j hj
        have hji : j < i := hhead j hj
        simp only [List.getD_eq_getElem?_getD,
          List.getElem?_eraseIdx_of_lt active i j hji]
    · rw [ih2, hlen]
      simp only [List.length_cons]
      omega

/-- C5: `deactivate_multiple_prompts` processes the valid indices from
highest to lowest (`sortDesc` yields a descending list), so the entries it
removes are exactly the entries of the PRE-CALL active list at those
positions; in particular deactivating active-indices `[2,0]` in one call
removes exactly the entries that were at positions 2 and 0, leaving the
entry that was at position 1 (and the tail) in place. -/
theorem C5_deactivate_descending :
    (∀ (l : List Nat), List.Pairwise (fun a b => a ≥ b) (sortDesc l)) ∧
    (∀ (st : ControllerState) (indices : List Int),
      indices ≠ [] →
      indices.Nodup →
      (∀ i ∈ indices, 0 ≤ i ∧ i < (st.active_prompts.length : Int)) →
      ∃ m stFin,
        deactivate_multiple_prompts st indices =
          Except.ok ((true, m,
            (sortDesc (indices.map Int.toNat)).map
              (fun i => st.active_prompts.getD i default)), stFin)) ∧
    (∀ (st : ControllerState) (a0 a1 a2 : Prompt) (rest : List Prompt),
      st.active_prompts = a0 :: a1 :: a2 :: rest →
      ∃ m, deactivate_multiple_prompts st [2, 0] =
        Except.ok ((true, m, [a2, a0]),
          { st with active_prompts := a1 :: rest })) := by
  refine ⟨sortDesc_pairwise, ?_, ?_⟩
  · intro st indices hne hnd hval
    obtain ⟨i0, hi0⟩ := List.exists_mem_of_ne_nil indices hne
    have hlenpos : 0 < st.active_prompts.length := by
      have := hval i0 hi0
      omega
    have hlength : ¬ (indices.length = 0) := by
      cases indices
      · exact absurd rfl hne
      · simp
    have hvalfil : indices.filter
        (fun i => decide (0 ≤ i ∧ i ≤ (st.active_prompts.length : Int) - 1)) = indices := by
      apply List.filter_eq_self.mpr
      intro i hi
      have := hval i hi
      simp only [decide_eq_true_eq]
      omega
    have hinvfil : indices.filter
        (fun i => decide (¬ (0 ≤ i ∧ i ≤ (st.active_prompts.length : Int) - 1))) = [] := by
      apply List.filter_eq_nil_iff.mpr
      intro i hi
      have := hval i hi
      simp only [decide_eq_true_eq]
      omega
    have hndnat : (indices.map Int.toNat).Nodup := by
      apply List.Nodup.map_on ?_ hnd
      intro x hx y hy hxy
      have := hval x hx
      have := hval y hy
      omega
    have hfit : ∀ j ∈ sortDesc (indices.map Int.toNat), j < st.active_prompts.length := by
      intro j hj
      have hj2 : j ∈ indices.map Int.toNat := (sortDesc_perm _).mem_iff.mp hj
      simp only [List.mem_map] at hj2
      obtain ⟨i, hi, rfl⟩ := hj2
      have := hval i hi
      omega
    obtain ⟨hrem, hlen2⟩ := popMany_removed (sortDesc (indices.map Int.toNat))
      st.active_prompts (sortDesc_strict _ hndnat) hfit
    have hremne : (popMany st.active_prompts (sortDesc (indices.map Int.toNat))).1.length ≠ 0 := by
      rw [hrem, List.length_map, (sortDesc_perm _).length_eq, List.length_map]
      exact hlength
    refine ⟨"已成功关闭提示词",
      { st with active_prompts :=
          (popMany st.active_prompts (sortDesc (indices.map Int.toNat))).2 }, ?_⟩
    simp only [deactivate_multiple_prompts]
    rw [if_neg hlength, if_neg (by omega), hvalfil, hinvfil,
      if_neg (by simp), if_pos hremne, hrem]
  · intro st a0 a1 a2 rest heq
    have hlen : st.active_prompts.length = rest.length + 3 := by
      rw [heq]
      simp
    refine ⟨"已成功关闭提示词", ?_⟩
    simp only [deactivate_multiple_prompts]
    rw [if_neg (by simp), if_neg (by omega)]
    have hvalfil : ([2, 0] : List Int).filter
        (fun i => decide (0 ≤ i ∧ i ≤ (st.active_prompts.length : Int) - 1)) = [2, 0] := by
      apply List.filter_eq_self.mpr
      intro i hi
      simp only [decide_eq_true_eq]
      rcases List.mem_cons.mp hi with rfl | hi2
      · omega
      · simp only [List.mem_singleton] at hi2
        subst hi2
        omega
    have hinvfil : ([2, 0] : List Int).filter
        (fun i => decide (¬ (0 ≤ i ∧ i ≤ (st.active_prompts.length : Int) - 1))) = [] := by
      apply List.filter_eq_nil_iff.mpr
      intro i hi
      simp only [decide_eq_true_eq]
      rcases List.mem_cons.mp hi with rfl | hi2
      · omega
      · simp only [List.mem_singleton] at hi2
        subst hi2
        omega
    rw [hvalfil, hinvfil, if_neg (by simp)]
    have hsort : sortDesc (([2, 0] : List Int).map Int.toNat) = [2, 0] := rfl
    rw [hsort]
    have hpop : popMany st.active_prompts [2, 0] = ([a2, a0], a1 :: rest) := by
      rw [heq]
      have h2 : (2 : Nat) < (a0 :: a1 :: a2 :: rest).length := by simp
      simp only [popMany, pm_deactivate_prompt, dif_pos h2]
      have h0 : (0 : Nat) < ((a0 :: a1 :: a2 :: rest).eraseIdx 2).length := by
        simp [List.eraseIdx]
      simp only [List.eraseIdx, dif_pos h0]
      rfl
    rw [hpop]
    rw [if_pos (by simp)]

/-- A state whose ActiveSet is `[A, B, C]`. -/
def stateActive3 : ControllerState :=
  { current_preset_name := "P"
    presets := [("P", ⟨[promptA, promptB, promptC], "SYS"⟩)]
    active_prompts := [promptA, promptB, promptC]
    prompt_groups := []
    saved_groups := []
    saved_activation := [] }

/-- Witness for C5: deactivating active-indices `[2,0]` on ActiveSet
`[A,B,C]` removes exactly `C` (position 2) and `A` (position 0). -/
theorem C5_witness :
    ∃ m, deactivate_multiple_prompts stateActive3 [2, 0] =
      Except.ok ((true, m, [promptC, promptA]),
        { stateActive3 with active_prompts := [promptB] }) :=
  C5_deactivate_descending.2.2 stateActive3 promptA promptB promptC [] rfl

/-! ## Claim C2 -/

theorem pm_activate_prompts_err (all : List Prompt) :
    ∀ (idxs : List Nat) (active : List Prompt),
      (∃ i ∈ idxs, ¬ i < all.length) →
      ∃ e, pm_activate_prompts all idxs active = Except.error e
  | [], _, h => by simp at h
  | i :: rest, active, h => by
    by_cases hi : i < all.length
    · have hrest : ∃ j ∈ rest, ¬ j < all.length := by
        obtain ⟨j, hj, hbad⟩ := h
        rcases List.mem_cons.mp hj with rfl | hjr
        · exact absurd hi hbad
        · exact ⟨j, hjr, hbad⟩
      simp only [pm_activate_prompts, dif_pos hi]
      by_cases hmem : all[i] ∈ active
      · rw [if_pos hmem]
        exact pm_activate_prompts_err all rest active hrest
      · rw [if_neg hmem]
        obtain ⟨e, herr⟩ := pm_activate_prompts_err all rest (active ++ [all[i]]) hrest
        rw [herr]
        exact ⟨e, rfl⟩
    · exact ⟨"IndexError", by simp only [pm_activate_prompts, dif_neg hi]⟩

/-- A state whose single-prompt preset has a stored group `g = [5]` whose
index is out of range. -/
def stateBadGroup : ControllerState :=
  { current_preset_name := "P"
    presets := [("P", ⟨[promptA], ""⟩)]
    active_prompts := []
    prompt_groups := [("g", [5])]
    saved_groups := []
    saved_activation := [] }

/-- C2 (counterexample): in a state whose group `g` stores index 5 while the
current preset has a single prompt, `activate_prompt_group` hands the stored
list `[5]` — containing an out-of-range index — to `activate_prompts`
without validation, and the call fails with an internal error instead of
skipping the stale index: the out-of-range index is NOT validated away by
the coordinator before `activate` is reached, contradicting the claim. -/
theorem C2_counterexample :
    group_indices_passed_to_activate stateBadGroup "g" = some [5] ∧
    ¬ (5 < (get_current_prompts_val stateBadGroup).length) ∧
    activate_prompt_group stateBadGroup "g" =
      Except.ok ((false, "激活组合时发生内部错误", []), stateBadGroup) :=
  ⟨rfl, by decide, rfl⟩

/-- C2 (amended): `activate_multiple_prompts` does validate every index
(0 ≤ idx < len) before `activate_prompts` is reached and rejects the whole
call on any out-of-range index (failure outcome, state unchanged);
`activate_prompt_group`, however, passes the group's stored index list to
`activate_prompts` exactly as stored, without range validation — an
out-of-range stored index is not skipped but makes the call fail with a
caught internal error, the state left unchanged. -/
theorem C2_amended :
    (∀ (st : ControllerState) (indices : List Int),
      (∃ i ∈ indices, ¬ (0 ≤ i ∧ i < ((get_current_prompts_val st).length : Int))) →
      ∃ m, activate_multiple_prompts st indices = Except.ok ((false, m, []), st)) ∧
    (∀ (st : ControllerState) (g : String) (l : List Nat),
      group_indices_passed_to_activate st g = some l →
      gm_get_prompt_group st g = some l) ∧
    (∀ (st : ControllerState) (g : String) (idxs : List Nat),
      gm_get_prompt_group st g = some idxs →
      ¬ ((get_current_prompts_val st).length = 0) →
      g ≠ "" →
      (∃ i ∈ idxs, ¬ i < (get_current_prompts_val st).length) →
      activate_prompt_group st g =
        Except.ok ((false, "激活组合时发生内部错误", []), st)) := by
  refine ⟨?_, ?_, ?_⟩
  · intro st indices hbad
    obtain ⟨i, hi, hinv⟩ := hbad
    have hlength : ¬ (indices.length = 0) := by
      cases indices
      · simp at hi
      · simp
    by_cases hall : (get_current_prompts_val st).length = 0
    · exact ⟨_, by simp only [activate_multiple_prompts]; rw [if_neg hlength, if_pos hall]⟩
    · have hinvne : (indices.filter
          (fun i => decide (¬ (0 ≤ i ∧ i ≤ ((get_current_prompts_val st).length : Int) - 1)))).length ≠ 0 := by
        have hmem : i ∈ indices.filter
            (fun i => decide (¬ (0 ≤ i ∧ i ≤ ((get_current_prompts_val st).length : Int) - 1))) := by
          apply List.mem_filter.mpr
          refine ⟨hi, ?_⟩
          simp only [decide_eq_true_eq]
          omega
        intro h0
        rw [List.length_eq_zero] at h0
        rw [h0] at hmem
        simp at hmem
      exact ⟨_, by
        simp only [activate_multiple_prompts]
        rw [if_neg hlength, if_neg hall, if_pos hinvne]⟩
  · intro st g l h
    simp only [group_indices_passed_to_activate] at h
    by_cases h1 : (get_current_prompts_val st).length = 0
    · rw [if_pos h1] at h
      exact Option.noConfusion h
    · rw [if_neg h1] at h
      by_cases h2 : g = ""
      · rw [if_pos h2] at h
        exact Option.noConfusion h
      · rw [if_neg h2] at h
        cases hlk : gm_get_prompt_group st g with
        | none =>
          rw [hlk] at h
          exact Option.noConfusion h
        | some idxs =>
          simp only [hlk] at h
          by_cases h3 : idxs.length = 0
          · rw [if_pos h3] at h
            exact Option.noConfusion h
          · rw [if_neg h3] at h
            exact h
  · intro st g idxs hlk hall hg hbad
    obtain ⟨e, herr⟩ :=
      pm_activate_prompts_err (get_current_prompts_val st) idxs st.active_prompts hbad
    have hidne : ¬ (idxs.length = 0) := by
      obtain ⟨i, hi, _⟩ := hbad
      cases idxs
      · simp at hi
      · simp
    simp only [activate_prompt_group]
    rw [if_neg hall, if_neg hg, hlk]
    dsimp only
    rw [if_neg hidne, herr]

/-- Witness for C2: the group path fails with the caught internal error at
the concrete bad-group state, as the amended claim states. -/
theorem C2_witness :
    activate_prompt_group stateBadGroup "g" =
      Except.ok ((false, "激活组合时发生内部错误", []), stateBadGroup) :=
  C2_amended.2.2 stateBadGroup "g" [5] rfl (by decide) (by decide) (by decide)

/-! ## Claim C7 -/

theorem pm_deactivate_by_reference_snd :
    ∀ (targets active : List Prompt),
      (pm_deactivate_prompts_by_reference active targets).2 =
        targets.foldl (fun acc t => acc.erase t) active
  | [], _ => rfl
  | t :: rest, active => by
    simp only [pm_deactivate_prompts_by_reference, List.foldl_cons]
    by_cases h : t ∈ active
    · rw [if_pos h]
      exact pm_deactivate_by_reference_snd rest (active.erase t)
    · rw [if_neg h, pm_deactivate_by_reference_snd rest active,
        List.erase_of_not_mem h]

/-- The prompts a group resolves to: each stored index is looked up in the
current full prompt list, out-of-range indices resolving to `none` and being
skipped (this is the `prompts_to_deactivate` list of source lines 497-505). -/
def group_targets (st : ControllerState) (idxs : List Nat) : List Prompt :=
  idxs.filterMap (fun i => (get_current_prompts_val st)[i]?)

/-- Removal by value: erase, for each target in order, the first matching
entry of the active list. -/
def eraseAllByValue (active targets : List Prompt) : List Prompt :=
  targets.foldl (fun acc t => acc.erase t) active

/-- The preset of this state has two prompts; its group `g` stores the
in-range index 0 and the stale index 7. -/
def stateGroupMixed : ControllerState :=
  { current_preset_name := "P"
    presets := [("P", ⟨[promptA, promptB], ""⟩)]
    active_prompts := [promptA, promptB]
    prompt_groups := [("g", [0, 7])]
    saved_groups := []
    saved_activation := [] }

/-- The preset of this state has one prompt; every index of its group `g`
(`[3,5]`) is out of range. -/
def stateStaleGroup : ControllerState :=
  { current_preset_name := "P"
    presets := [("P", ⟨[promptA], ""⟩)]
    active_prompts := [promptA]
    prompt_groups := [("g", [3, 5])]
    saved_groups := []
    saved_activation := [] }

/-- C7 (counterexample): the claim says every stale index is skipped
"without making the operation fail"; but when EVERY stored index of the
group is out of range, `deactivate_prompt_group` returns a failure outcome
(source lines 511-513), so the claim is false as stated. -/
theorem C7_counterexample :
    ¬ (3 < (get_current_prompts_val stateStaleGroup).length) ∧
    ¬ (5 < (get_current_prompts_val stateStaleGroup).length) ∧
    deactivate_prompt_group stateStaleGroup "g" =
      Except.ok ((false, "组合中的索引无效或未找到对应提示词", []), stateStaleGroup) :=
  ⟨by decide, by decide, rfl⟩

/-- C7 (amended): `deactivate_prompt_group` resolves the group's stored
indices against the current full prompt list; each out-of-range index is
skipped, and — provided at least one index remains in range — the operation
succeeds and removes the prompts at the remaining in-range indices from the
ActiveSet by value (first matching entry each); if EVERY stored index is out
of range, the operation returns a failure outcome with the state
unchanged. -/
theorem C7_amended :
    ∀ (st : ControllerState) (g : String) (idxs : List Nat),
      st.current_preset_name ≠ "" → g ≠ "" →
      gm_get_prompt_group st g = some idxs →
      idxs ≠ [] →
      ¬ ((get_current_prompts_val st).length = 0) →
      ((group_targets st idxs ≠ []) →
        ∃ m, deactivate_prompt_group st g =
          Except.ok ((true, m,
            (pm_deactivate_prompts_by_reference st.active_prompts
              (group_targets st idxs)).1),
            { st with active_prompts :=
                eraseAllByValue st.active_prompts (group_targets st idxs) })) ∧
      ((group_targets st idxs = []) →
        ∃ m, deactivate_prompt_group st g = Except.ok ((false, m, []), st)) := by
  intro st g idxs hc hg hlk hne hall
  have hidne : ¬ (idxs.length = 0) := by
    cases idxs
    · exact absurd rfl hne
    · simp
  constructor
  · intro htne
    have htlen : ¬ ((idxs.filterMap
        (fun i => (get_current_prompts_val st)[i]?)).length = 0) := by
      intro h0
      exact htne (List.length_eq_zero.mp h0)
    by_cases hres : (pm_deactivate_prompts_by_reference st.active_prompts
        (idxs.filterMap (fun i => (get_current_prompts_val st)[i]?))).1.length ≠ 0
    · refine ⟨"已关闭组合中的提示词", ?_⟩
      simp only [deactivate_prompt_group, group_targets, eraseAllByValue]
      rw [if_neg hc, if_neg hg, hlk]
      dsimp only
      rw [if_neg hidne, if_neg hall, if_neg htlen, if_pos hres,
        pm_deactivate_by_reference_snd]
    · refine ⟨"组合中的提示词均未激活", ?_⟩
      have hres0 : (pm_deactivate_prompts_by_reference st.active_prompts
          (idxs.filterMap (fun i => (get_current_prompts_val st)[i]?))).1 = [] := by
        rcases Nat.eq_zero_or_pos (pm_deactivate_prompts_by_reference st.active_prompts
          (idxs.filterMap (fun i => (get_current_prompts_val st)[i]?))).1.length with h0 | hpos
        · exact List.length_eq_zero.mp h0
        · exact absurd (by omega) hres
      simp only [deactivate_prompt_group, group_targets, eraseAllByValue]
      rw [if_neg hc, if_neg hg, hlk]
      dsimp only
      rw [if_neg hidne, if_neg hall, if_neg htlen, if_neg hres,
        pm_deactivate_by_reference_snd, ← hres0]
  · intro hte
    have htlen : (idxs.filterMap
        (fun i => (get_current_prompts_val st)[i]?)).length = 0 := by
      have hte2 : idxs.filterMap (fun i => (get_current_prompts_val st)[i]?) = [] := hte
      rw [hte2]
      rfl
    refine ⟨"组合中的索引无效或未找到对应提示词", ?_⟩
    simp only [deactivate_prompt_group]
    rw [if_neg hc, if_neg hg, hlk]
    dsimp only
    rw [if_neg hidne, if_neg hall, if_pos htlen]

/-- Witness for C7: on the mixed group `[0, 7]` over a two-prompt preset the
operation succeeds, skipping the stale index 7 and removing prompt `A`
(index 0) from the ActiveSet by value. -/
theorem C7_witness :
    ∃ m, deactivate_prompt_group stateGroupMixed "g" =
      Except.ok ((true, m,
        (pm_deactivate_prompts_by_reference stateGroupMixed.active_prompts
          (group_targets stateGroupMixed [0, 7])).1),
        { stateGroupMixed with
            active_prompts := eraseAllByValue stateGroupMixed.active_prompts
              (group_targets stateGroupMixed [0, 7]) }) :=
  (C7_amended stateGroupMixed "g" [0, 7] (by decide) (by decide) rfl
    (by decide) (by decide)).1 (by decide)

/-! ## Claim C3 -/

/-- C3: with Python exceptions modelled explicitly (`Except.error` = an
exception escaping the method), no public controller operation ever returns
`Except.error`: for every state and every input, each of the 25 public
operations yields `Except.ok` carrying its result value — the read-only
operations because none of their callees can raise, the mutating operations
because their bodies are wrapped in catch-all `try/except` blocks that turn
any internal exception (notably the `IndexError` reachable through
`activate_prompt_group`'s unvalidated indices) into a failure tuple. -/
theorem C3_no_exception_escapes :
    (∀ st, (get_preset_list st).isOk = true) ∧
    (∀ st, (get_current_preset_name st).isOk = true) ∧
    (∀ st, (get_current_prompts st).isOk = true) ∧
    (∀ st, (get_current_prefix_text st).isOk = true) ∧
    (∀ st, (get_active_prompts st).isOk = true) ∧
    (∀ st index, (switch_preset st index).isOk = true) ∧
    (∀ st name, (create_preset st name).isOk = true) ∧
    (∀ st ext, (refresh_prompts st ext).isOk = true) ∧
    (∀ st index, (activate_prompt st index).isOk = true) ∧
    (∀ st indices, (activate_multiple_prompts st indices).isOk = true) ∧
    (∀ st g, (activate_prompt_group st g).isOk = true) ∧
    (∀ st index, (deactivate_prompt st index).isOk = true) ∧
    (∀ st indices, (deactivate_multiple_prompts st indices).isOk = true) ∧
    (∀ st g, (deactivate_prompt_group st g).isOk = true) ∧
    (∀ st, (clear_active_prompts st).isOk = true) ∧
    (∀ st name content, (add_prompt st name content).isOk = true) ∧
    (∀ st index name content, (update_prompt st index name content).isOk = true) ∧
    (∀ st index, (delete_prompt st index).isOk = true) ∧
    (∀ st, (get_prompt_groups st).isOk = true) ∧
    (∀ st name, (get_prompt_group st name).isOk = true) ∧
    (∀ st name indices, (create_prompt_group st name indices).isOk = true) ∧
    (∀ st name indices, (update_prompt_group st name indices).isOk = true) ∧
    (∀ st name, (delete_prompt_group st name).isOk = true) ∧
    (∀ st sys user, (process_llm_request st sys user).isOk = true) ∧
    (∀ st, (terminate st).isOk = true) := by
  refine ⟨fun st => rfl, fun st => rfl, fun st => rfl, fun st => rfl, fun st => rfl,
    ?_, ?_, ?_, ?_, ?_, ?_, ?_, ?_, ?_, ?_, ?_, ?_, ?_,
    fun st => rfl, fun st name => rfl, ?_, ?_, ?_, ?_, fun st => rfl⟩
  · intro st index
    simp only [switch_preset]
    repeat' split
    all_goals rfl
  · intro st name
    simp only [create_preset]
    repeat' split
    all_goals rfl
  · intro st ext
    simp only [refresh_prompts]
    repeat' split
    all_goals rfl
  · intro st index
    simp only [activate_prompt]
    repeat' split
    all_goals rfl
  · intro st indices
    simp only [activate_multiple_prompts]
    repeat' split
    all_goals rfl
  · intro st g
    simp only [activate_prompt_group]
    repeat' split
    all_goals rfl
  · intro st index
    simp only [deactivate_prompt]
    repeat' split
    all_goals rfl
  · intro st indices
    simp only [deactivate_multiple_prompts]
    repeat' split
    all_goals rfl
  · intro st g
    simp only [deactivate_prompt_group]
    repeat' split
    all_goals rfl
  · intro st
    simp only [clear_active_prompts]
    repeat' split
    all_goals rfl
  · intro st name content
    simp only [add_prompt]
    repeat' split
    all_goals rfl
  · intro st index name content
    simp only [update_prompt]
    repeat' split
    all_goals rfl
  · intro st index
    simp only [delete_prompt]
    repeat' split
    all_goals rfl
  · intro st name indices
    simp only [create_prompt_group]
    repeat' split
    all_goals rfl
  · intro st name indices
    simp only [update_prompt_group]
    repeat' split
    all_goals rfl
  · intro st name
    simp only [delete_prompt_group]
    repeat' split
    all_goals rfl
  · intro st sys user
    simp only [process_llm_request]
    repeat' split
    all_goals rfl
